import Mathlib

/-!
Shallow embedding of the database acquisition pipeline implemented in
`src/extensions/ql-vscode/src/databases/database-fetcher.ts`, together with
theorems settling the specification claims about it.

Host-provided collaborators (the VS Code `Uri` class, the filesystem, the
network, the CodeQL CLI, the quick-pick UI) are modelled as explicit function
parameters, and observable side effects are recorded in an explicit event
trace.  Machine-level details that cannot influence any claim (UTF-16 versus
codepoint indexing on the short ASCII names involved, locale-sensitive label
collation in the language picker) are noted where they are abstracted.
-/

/-- `join(a, b)` from node `path`, restricted to the concatenation case the
fetcher exercises (non-empty segments, no trailing separators). -/
def pjoin (a b : String) : String := a ++ "/" ++ b

/-- A filesystem tree entry as observed by `findDirWithFile` through `stat`
and `readdir`: either a plain file or a directory whose children are listed
in filesystem order. -/
inductive FsEntry where
  | file (name : String)
  | dir (name : String) (children : List FsEntry)

/-- The name of an entry, as returned by `readdir` on its parent. -/
def FsEntry.name : FsEntry → String
  | .file n => n
  | .dir n _ => n

mutual
/-- `findDirWithFile(dir, ...toFind)` (database-fetcher.ts lines 600–619):
if `dir` is not a directory, return `undefined`; if some immediate child name
is one of `toFind`, return `dir`; otherwise recurse into each child in
listing order and return the first defined result.  `dirPath` is the path of
`e` on disk; recursion joins the child name onto it, as the source does. -/
def findDirWithFile (dirPath : String) (e : FsEntry) (toFind : List String) :
    Option String :=
  match e with
  | .file _ => none
  | .dir _ children =>
    if toFind.any (fun f => (children.map FsEntry.name).contains f) then
      some dirPath
    else
      findDirInChildren dirPath children toFind

/-- The `for (const file of files)` loop of `findDirWithFile`: try each child
in listing order, returning the first defined recursive result. -/
def findDirInChildren (dirPath : String) (children : List FsEntry)
    (toFind : List String) : Option String :=
  match children with
  | [] => none
  | c :: rest =>
    match findDirWithFile (pjoin dirPath c.name) c toFind with
    | some r => some r
    | none => findDirInChildren dirPath rest toFind
end

mutual
/-- Specification-side enumeration: the paths of every marker-bearing
directory of the tree (every directory one of whose immediate child names is
in `toFind`), in depth-first preorder, with no short-circuiting. -/
def markerDirs (dirPath : String) (e : FsEntry) (toFind : List String) :
    List String :=
  match e with
  | .file _ => []
  | .dir _ children =>
    (if toFind.any (fun f => (children.map FsEntry.name).contains f) then
      [dirPath]
    else []) ++ markerDirsChildren dirPath children toFind

/-- Preorder enumeration of marker-bearing directories below a child list. -/
def markerDirsChildren (dirPath : String) (children : List FsEntry)
    (toFind : List String) : List String :=
  match children with
  | [] => []
  | c :: rest =>
    markerDirs (pjoin dirPath c.name) c toFind ++
      markerDirsChildren dirPath rest toFind
end

theorem findDirInChildren_eq_head (dirPath : String) (children : List FsEntry)
    (toFind : List String)
    (IH : ∀ c ∈ children, ∀ p,
      findDirWithFile p c toFind = (markerDirs p c toFind).head?) :
    findDirInChildren dirPath children toFind =
      (markerDirsChildren dirPath children toFind).head? := by
  induction children with
  | nil => simp [findDirInChildren, markerDirsChildren]
  | cons c rest ih =>
    rw [findDirInChildren, markerDirsChildren]
    rw [IH c (by simp)]
    cases h : markerDirs (pjoin dirPath c.name) c toFind with
    | nil =>
      simpa using ih (fun c hc p => IH c (by simp [hc]) p)
    | cons d ds => simp

theorem findDirWithFile_eq_head :
    ∀ (n : Nat) (e : FsEntry), sizeOf e ≤ n → ∀ (p : String) (toFind : List String),
      findDirWithFile p e toFind = (markerDirs p e toFind).head? := by
  intro n
  induction n with
  | zero =>
    intro e h
    cases e <;> simp_arith at h
  | succ n ih =>
    intro e h p toFind
    cases e with
    | file nm => rw [findDirWithFile, markerDirs]; rfl
    | dir nm children =>
      rw [findDirWithFile, markerDirs]
      by_cases hb :
          (toFind.any fun f => (children.map FsEntry.name).contains f) = true
      · rw [if_pos hb, if_pos hb, List.singleton_append, List.head?_cons]
      · rw [if_neg hb, if_neg hb, List.nil_append]
        apply findDirInChildren_eq_head
        intro c hc q
        apply ih c ?_ q
        have h1 : sizeOf c < sizeOf children := List.sizeOf_lt_of_mem hc
        have h2 : 1 + sizeOf nm + sizeOf children ≤ n + 1 := by
          simpa using h
        omega

/-- C1: `findDirWithFile` performs a depth-first descent: a non-directory
input yields "not found" immediately; at a directory whose immediate child
names include one of the marker names, that directory is returned without
recursing; otherwise the children are tried in filesystem-listing order and
the first defined result is returned — in total, the result is the head of
the depth-first preorder list of marker-bearing directories, so a tree with
exactly one marker-bearing directory yields that directory and a tree with
none yields "not found". -/
theorem findDirWithFile_claim :
    (∀ (p n : String) (toFind : List String),
      findDirWithFile p (.file n) toFind = none) ∧
    (∀ (p nm : String) (children : List FsEntry) (toFind : List String),
      (toFind.any fun f => (children.map FsEntry.name).contains f) = true →
      findDirWithFile p (.dir nm children) toFind = some p) ∧
    (∀ (p : String) (e : FsEntry) (toFind : List String),
      findDirWithFile p e toFind = (markerDirs p e toFind).head?) ∧
    (∀ (p : String) (e : FsEntry) (toFind : List String) (d : String),
      markerDirs p e toFind = [d] → findDirWithFile p e toFind = some d) ∧
    (∀ (p : String) (e : FsEntry) (toFind : List String),
      markerDirs p e toFind = [] → findDirWithFile p e toFind = none) := by
  have key : ∀ (p : String) (e : FsEntry) (toFind : List String),
      findDirWithFile p e toFind = (markerDirs p e toFind).head? :=
    fun p e toFind => findDirWithFile_eq_head (sizeOf e) e (Nat.le_refl _) p toFind
  refine ⟨?_, ?_, key, ?_, ?_⟩
  · intro p n toFind
    rw [findDirWithFile]
  · intro p nm children toFind hb
    rw [findDirWithFile, if_pos hb]
  · intro p e toFind d h
    rw [key, h]
    rfl
  · intro p e toFind h
    rw [key, h]
    rfl

/-- Witness for C1 at a concrete tree: `x/` contains `readme` and `nested/`;
`nested/` contains `.dbinfo` and `src/`; the unique marker-bearing directory
`r/nested` is found. -/
theorem findDirWithFile_claim_witness :
    markerDirs "r"
      (FsEntry.dir "x"
        [FsEntry.file "readme",
         FsEntry.dir "nested" [FsEntry.file ".dbinfo", FsEntry.dir "src" []]])
      [".dbinfo", "codeql-database.yml"] = ["r/nested"] ∧
    findDirWithFile "r"
      (FsEntry.dir "x"
        [FsEntry.file "readme",
         FsEntry.dir "nested" [FsEntry.file ".dbinfo", FsEntry.dir "src" []]])
      [".dbinfo", "codeql-database.yml"] = some "r/nested" := by
  have h : markerDirs "r"
      (FsEntry.dir "x"
        [FsEntry.file "readme",
         FsEntry.dir "nested" [FsEntry.file ".dbinfo", FsEntry.dir "src" []]])
      [".dbinfo", "codeql-database.yml"] = ["r/nested"] := by
    simp [markerDirs, markerDirsChildren, pjoin, FsEntry.name]
  exact ⟨h, findDirWithFile_claim.2.2.2.1 _ _ _ _ h⟩

/-- The error taxonomy of the fetcher: one constructor per distinct `throw
new Error(...)` site (or typed abort) in database-fetcher.ts. -/
inductive FetchError where
  | invalidUrl (url : String)
  | insecureTransport
  | noStoragePath
  | nameExhaustion
  | databaseNotFound
  | requestTimedOut
  | downloadTimedOut
  | remoteFetch (msg : String)
  | streamFailure (msg : String)
  | unbundleFailure (msg : String)
  | noDatabases
  | apiFailure (msg : String)
  | noDatabaseForLanguage (language : String)
  | databaseLookup (nwo : String)
  | invalidRepo (repo : String)
deriving Repr, DecidableEq

/-- The literal message carried by each thrown error in the source. -/
def errorMessage : FetchError → String
  | .invalidUrl url => "Invalid url: " ++ url
  | .insecureTransport => "Must use https for downloading a database."
  | .noStoragePath => "No storage path specified."
  | .nameExhaustion => "Could not find a unique name for downloaded database."
  | .databaseNotFound => "Database not found in archive."
  | .requestTimedOut => "The request timed out."
  | .downloadTimedOut => "The download timed out."
  | .remoteFetch msg => "Error downloading database.\n\nReason: " ++ msg
  | .streamFailure msg => msg
  | .unbundleFailure msg => msg
  | .noDatabases => "No databases found"
  | .apiFailure msg => msg
  | .noDatabaseForLanguage l => "No database found for language '" ++ l ++ "'"
  | .databaseLookup nwo => "Unable to get database for '" ++ nwo ++ "'"
  | .invalidRepo repo => "Invalid GitHub repository: " ++ repo

/-- Split a character list at `/` boundaries: model of JS `split("/")`,
written over explicit character lists so that it computes. -/
def splitSlash : List Char → List (List Char)
  | [] => [[]]
  | c :: rest =>
    if c = '/' then [] :: splitSlash rest
    else match splitSlash rest with
      | s :: ss => (c :: s) :: ss
      | [] => [[c]]

/-- `basename` from node `path`: the last non-empty `/`-separated segment. -/
def basename (p : String) : String :=
  ⟨((splitSlash p.data).filter (fun s => s ≠ [])).getLastD []⟩

/-- Lines 415–421 of `getStorageFolder`: the basename of the URL path,
truncated to 250 characters, with a trailing `.zip` then stripped (the
source truncates first and strips second, so the check is on the truncated
name).  JS `substring` counts UTF-16 units where `List.take` counts
characters; identical on the names involved. -/
def storageBaseName (urlPath : String) : String :=
  let lastName : List Char := (basename urlPath).data.take 250
  if lastName.reverse.take 4 = ['p', 'i', 'z', '.'] then
    ⟨(lastName.reverse.drop 4).reverse⟩
  else ⟨lastName⟩

/-- The folder name the disambiguation loop tries at counter value `k`:
the bare base name for `k = 0`, `<base>-<k>` afterwards. -/
def candidateName (realpath lastName : String) : Nat → String
  | 0 => pjoin realpath lastName
  | k + 1 => pjoin realpath (lastName ++ "-" ++ toString (k + 1))

/-- The `while (await pathExists(folderName))` loop of `getStorageFolder`
(lines 427–434): bump the counter and retry while the candidate exists,
failing once the counter exceeds 100.  `ex` is the `pathExists`
collaborator. -/
def storageLoop (ex : String → Bool) (realpath lastName : String)
    (counter : Nat) (folderName : String) : Except FetchError String :=
  if ex folderName then
    if 100 < counter + 1 then .error .nameExhaustion
    else
      storageLoop ex realpath lastName (counter + 1)
        (pjoin realpath (lastName ++ "-" ++ toString (counter + 1)))
  else .ok folderName
termination_by 101 - counter
decreasing_by
  simp_wf
  omega

/-- `getStorageFolder(storagePath, urlStr)` (lines 411–436).  `ex` is the
`pathExists` collaborator, `realpathFn` the `fs.realpath` collaborator, and
`urlPath` the `path` component of `Uri.parse(urlStr)`. -/
def getStorageFolder (ex : String → Bool) (realpathFn : String → String)
    (storagePath urlPath : String) : Except FetchError String :=
  let lastName := storageBaseName urlPath
  let realpath := realpathFn storagePath
  storageLoop ex realpath lastName 0 (candidateName realpath lastName 0)

theorem storageLoop_eq_find (ex : String → Bool) (realpath lastName : String) :
    ∀ (n counter : Nat), counter + n = 101 → 1 ≤ n →
      storageLoop ex realpath lastName counter
          (candidateName realpath lastName counter) =
        match ((List.range' counter n).map
            (candidateName realpath lastName)).find? (fun c => !ex c) with
        | some c => .ok c
        | none => .error .nameExhaustion := by
  intro n
  induction n with
  | zero => omega
  | succ n ih =>
    intro counter hsum _
    rw [storageLoop]
    rcases Nat.eq_zero_or_pos n with hn | hn
    · subst hn
      have hc : counter = 100 := by omega
      subst hc
      by_cases hex : ex (candidateName realpath lastName 100) = true
      · rw [if_pos hex, if_pos (by omega)]
        simp [List.range', List.find?, hex]
      · rw [if_neg hex]
        simp only [Bool.not_eq_true] at hex
        simp [List.range', List.find?, hex]
    · have hcn : counter < 100 := by omega
      by_cases hex : ex (candidateName realpath lastName counter) = true
      · rw [if_pos hex, if_neg (by omega)]
        have hstep : candidateName realpath lastName (counter + 1) =
            pjoin realpath (lastName ++ "-" ++ toString (counter + 1)) := rfl
        rw [← hstep, ih (counter + 1) (by omega) (by omega)]
        conv_rhs => rw [List.range']
        simp [List.find?, hex]
      · rw [if_neg hex]
        simp only [Bool.not_eq_true] at hex
        conv_rhs => rw [List.range']
        simp [List.find?, hex]

instance {ε α : Type} [DecidableEq ε] [DecidableEq α] :
    DecidableEq (Except ε α) := fun x y =>
  match x, y with
  | .ok a, .ok b => decidable_of_iff (a = b) (by simp)
  | .error a, .error b => decidable_of_iff (a = b) (by simp)
  | .ok _, .error _ => isFalse (by simp)
  | .error _, .ok _ => isFalse (by simp)

theorem getStorageFolder_eq_find (ex : String → Bool)
    (realpathFn : String → String) (storagePath urlPath : String) :
    getStorageFolder ex realpathFn storagePath urlPath =
      match ((List.range 101).map
          (candidateName (realpathFn storagePath) (storageBaseName urlPath))).find?
          (fun c => !ex c) with
      | some c => .ok c
      | none => .error .nameExhaustion := by
  rw [getStorageFolder]
  rw [storageLoop_eq_find ex (realpathFn storagePath) (storageBaseName urlPath)
    101 0 rfl (by omega)]
  rw [List.range_eq_range']

set_option maxRecDepth 20000 in
/-- C2: the destination folder name is the archive base name with a `.zip`
suffix stripped after truncation to 250 characters, disambiguated by the
least counter whose candidate does not exist yet: the result is the first
entry of `[base, base-1, ..., base-100]` that does not exist; a root holding
`db`, `db-1`, `db-2` yields `db-3` for archive `db.zip`; when all 101
candidates exist (the counter would exceed 100) the operation fails with
the name-exhaustion error. -/
theorem getStorageFolder_claim :
    (∀ (ex : String → Bool) (realpathFn : String → String)
        (storagePath urlPath : String),
      getStorageFolder ex realpathFn storagePath urlPath =
        match ((List.range 101).map
            (candidateName (realpathFn storagePath) (storageBaseName urlPath))).find?
            (fun c => !ex c) with
        | some c => .ok c
        | none => .error .nameExhaustion) ∧
    storageBaseName "/a/db.zip" = "db" ∧
    getStorageFolder (fun s => ["r/db", "r/db-1", "r/db-2"].contains s)
      id "r" "/a/db.zip" = .ok "r/db-3" ∧
    getStorageFolder (fun _ => true) id "r" "/a/db.zip" =
      .error .nameExhaustion := by
  refine ⟨getStorageFolder_eq_find, by decide, ?_, ?_⟩
  · rw [getStorageFolder_eq_find]
    decide
  · rw [getStorageFolder_eq_find]
    decide

/-- The on-disk state of `<databasePath>/src` and `<databasePath>/src.zip`:
`some` holds the (abstracted) content when the entry exists. -/
structure SrcState where
  srcDir : Option String
  srcZip : Option String
deriving Repr, DecidableEq

/-- `ensureZippedSourceLocation(databasePath)` (lines 721–729): if the loose
`src` folder exists and `src.zip` does not, zip the folder into `src.zip`
and remove the folder; otherwise do nothing.  `zipFn` is the `zip-a-folder`
collaborator. -/
def ensureZippedSourceLocation (zipFn : String → String) (s : SrcState) :
    SrcState :=
  match s.srcDir, s.srcZip with
  | some d, none => { srcDir := none, srcZip := some (zipFn d) }
  | _, _ => s

/-- C3: `ensureZippedSourceLocation` is idempotent — a second call leaves the
on-disk state of the first call unchanged (and raises no error, the function
being total); an existing `src.zip` is never overwritten and a loose `src`
directory is then left untouched; it is a no-op when neither exists. -/
theorem ensureZippedSourceLocation_claim :
    (∀ (zipFn : String → String) (s : SrcState),
      ensureZippedSourceLocation zipFn (ensureZippedSourceLocation zipFn s) =
        ensureZippedSourceLocation zipFn s) ∧
    (∀ (zipFn : String → String) (s : SrcState) (z : String),
      s.srcZip = some z → ensureZippedSourceLocation zipFn s = s) ∧
    (∀ (zipFn : String → String) (s : SrcState),
      s.srcDir = none → s.srcZip = none →
      ensureZippedSourceLocation zipFn s = s) := by
  refine ⟨?_, ?_, ?_⟩
  · intro zipFn s
    rcases s with ⟨d, z⟩
    cases d <;> cases z <;> rfl
  · intro zipFn s z hz
    rcases s with ⟨d, z'⟩
    cases hz
    cases d <;> rfl
  · intro zipFn s hd hz
    rcases s with ⟨d, z⟩
    cases hd
    cases hz
    rfl

/-- Witness for C3 at a concrete state: a loose `src` directory and no
`src.zip`; the first call zips, the second changes nothing; and at a state
with an existing zip, the call is the identity. -/
theorem ensureZippedSourceLocation_claim_witness :
    ensureZippedSourceLocation id
        (ensureZippedSourceLocation id ⟨some "srcContent", none⟩) =
      ensureZippedSourceLocation id ⟨some "srcContent", none⟩ ∧
    (SrcState.mk (some "srcContent") (some "zipContent")).srcZip =
      some "zipContent" ∧
    ensureZippedSourceLocation id ⟨some "srcContent", some "zipContent"⟩ =
      ⟨some "srcContent", some "zipContent"⟩ ∧
    (SrcState.mk none none).srcDir = none ∧
    ensureZippedSourceLocation id ⟨none, none⟩ = ⟨none, none⟩ :=
  ⟨ensureZippedSourceLocation_claim.1 id ⟨some "srcContent", none⟩,
   rfl,
   ensureZippedSourceLocation_claim.2.1 id
     ⟨some "srcContent", some "zipContent"⟩ "zipContent" rfl,
   rfl,
   ensureZippedSourceLocation_claim.2.2 id ⟨none, none⟩ rfl rfl⟩

/-- The scheme capture of the host `Uri` parser's regular expression: the
non-empty run of characters before the first `:`, provided no `/`, `?` or `#`
occurs first.  `some []` marks a leading `:` (no scheme).  Written over
character lists so that it computes. -/
def schemeChars : List Char → Option (List Char)
  | [] => none
  | c :: rest =>
    if c = '/' ∨ c = '?' ∨ c = '#' then none
    else if c = ':' then some []
    else
      match schemeChars rest with
      | some s => some (c :: s)
      | none => none

/-- The `\w[\w\d+.-]*` scheme validation of the host `Uri` class. -/
def isValidScheme : List Char → Bool
  | [] => false
  | c :: rest =>
    (c.isAlpha || c.isDigit || c = '_') &&
      rest.all (fun c =>
        c.isAlpha || c.isDigit || c = '_' || c = '+' || c = '.' || c = '-')

/-- `Uri.parse(value, true)` (strict): the scheme when the host parser
succeeds, `none` when it throws (no scheme present, or illegal scheme
characters). -/
def parseUriStrict (s : String) : Option String :=
  match schemeChars s.data with
  | some cs => if isValidScheme cs then some ⟨cs⟩ else none
  | none => none

/-- `Uri.parse(value).scheme` (non-strict): a missing scheme defaults to
`file`. -/
def uriScheme (s : String) : String :=
  match schemeChars s.data with
  | some cs => if isValidScheme cs then ⟨cs⟩ else "file"
  | none => "file"

/-- `validateUrl(databaseUrl)` (lines 438–449): fail with the invalid-URL
error when strict parsing fails, and with the insecure-transport error when
the scheme is not `https` and the `allowHttp` configuration flag is unset. -/
def validateUrl (allowHttp : Bool) (databaseUrl : String) :
    Except FetchError Unit :=
  match parseUriStrict databaseUrl with
  | none => .error (.invalidUrl databaseUrl)
  | some scheme =>
    if !allowHttp && scheme ≠ "https" then .error .insecureTransport
    else .ok ()

/-- `isFile(databaseUrl)` (lines 587–589). -/
def isFile (databaseUrl : String) : Bool := uriScheme databaseUrl == "file"

/-- `Uri.parse(zipUrl).fsPath` for the `file:` URLs the fetcher builds. -/
def uriFsPath (s : String) : String :=
  if s.data.take 7 = ['f', 'i', 'l', 'e', ':', '/', '/'] then ⟨s.data.drop 7⟩
  else s

/-- The `path` component of `Uri.parse(urlStr)` for the authority-carrying or
local URLs the fetcher receives (no query or fragment). -/
def uriPath (s : String) : String :=
  match schemeChars s.data with
  | none => s
  | some cs =>
    let rest := s.data.drop (cs.length + 1)
    if rest.take 2 = ['/', '/'] then
      ⟨(rest.drop 2).dropWhile (fun c => c ≠ '/')⟩
    else ⟨rest⟩

/-- Provenance record persisted with an imported database. -/
inductive DatabaseOrigin where
  | url (url : String)
  | archive (path : String)
  | github (repository : String) (databaseId : Nat) (databaseCreatedAt : String)
      (commitOid : Option String)
deriving Repr, DecidableEq

/-- Observable side effects of the pipeline, recorded in order of
occurrence. -/
inductive Event where
  | progressReport (message : String) (step maxStep : Nat)
  | ensureDir (path : String)
  | networkRequest (url : String)
  | fsCreate (path : String)
  | fsRemove (path : String)
  | unbundle (archive dest : String)
  | apiListDatabases (nwo : String)
  | showQuickPick
  | showInputBox
  | openDatabase (path : String) (origin : DatabaseOrigin)
      (nameOverride : Option String)
  | executeCommand (cmd : String)
  | logMessage (msg : String)
deriving Repr, DecidableEq

/-- Modelled from the spec: `reportStreamProgress(body, "Downloading
database", totalNumBytes, progress)` (line 519; the helper lives in
`common/vscode/progress`, which is not under `src/`) "reports
byte-granularity progress if the server supplies a content-length" — one
`{message, step, maxStep}` record per observed chunk, with the bytes
received so far as step and the content length as maxStep, and nothing when
the content length is absent.  The chunk byte counts are supplied by the
network collaborator. -/
def reportStreamProgress (message : String) (totalNumBytes : Option Nat)
    (bytesSeen : List Nat) : List Event :=
  match totalNumBytes with
  | none => []
  | some total => bytesSeen.map (fun b => Event.progressReport message b total)

/-- Outcome of the streaming HTTP download, as provided by the network
collaborator: the request may time out or return a failing response (both
before the temporary file is created), the body stream may time out or fail
while being written, or the download completes. -/
inductive FetchOutcome where
  | requestTimeout
  | failingResponse (msg : String)
  | streamTimeout
  | streamFailure (msg : String)
  | success
deriving Repr, DecidableEq

/-- One entry of the code-scanning API's database listing. -/
structure CodeqlDatabase where
  language : String
  url : String
  id : Nat
  created_at : String
  commit_oid : Option String
deriving Repr, DecidableEq

/-- The host collaborators consumed by the pipeline: filesystem queries,
the network, the CodeQL CLI unbundler, the `zip-a-folder` zipper, the
quick-pick UI, the code-scanning API client, configuration, and the
temporary-directory and clock primitives.  The unpacked tree and the
`src`/`src.zip` state that unpacking produces are supplied as functions of
the respective paths. -/
structure Collab where
  pathExists : String → Bool
  realpath : String → String
  fetchOutcome : String → FetchOutcome
  contentLength : String → Option Nat
  bytesSeen : String → List Nat
  unbundle : String → String → Except String Unit
  unpackedTree : String → FsEntry
  srcState : String → SrcState
  zipFn : String → String
  tmpDirName : String
  now : Nat
  pick : List (String × String) → Option (String × String)
  displayName : String → String
  listDatabases : String → String → Except String (List CodeqlDatabase)
  authToken : Option String
  allowHttp : Bool

/-- `readAndUnzip(zipUrl, unzipPath, cli, progress)` (lines 451–465): report
step 9 of 10, then delegate to `cli.databaseUnbundle`; a CLI failure
propagates. -/
def readAndUnzip (w : Collab) (zipUrl unzipPath : String) :
    Except FetchError Unit × List Event :=
  let zipFile := uriFsPath zipUrl
  let evts := [Event.progressReport ("Unzipping into " ++ basename unzipPath) 9 10,
               Event.unbundle zipFile unzipPath]
  match w.unbundle zipFile unzipPath with
  | .ok _ => (.ok (), evts)
  | .error msg => (.error (.unbundleFailure msg), evts)

/-- The temporary archive path `join(tmpDir.name, `archive-${Date.now()}.zip`)`
of `fetchAndUnzip` (line 480). -/
def tmpArchivePath (w : Collab) : String :=
  pjoin w.tmpDirName ("archive-" ++ toString w.now ++ ".zip")

/-- `fetchAndUnzip(databaseUrl, requestHeaders, unzipPath, cli, progress)`
(lines 467–564): report step 1 of 3, perform the download into the temporary
archive — `reportStreamProgress` delivering byte-granularity reports to the
same sink while the body streams (line 519) — unzip it via `readAndUnzip`,
and remove the archive after a successful unzip; a partial file is removed
(best effort, failures not surfaced) when the body stream fails. -/
def fetchAndUnzip (w : Collab) (databaseUrl unzipPath : String) :
    Except FetchError Unit × List Event :=
  let archivePath := tmpArchivePath w
  let evts0 := [Event.progressReport "Downloading database" 1 3,
                Event.networkRequest databaseUrl]
  let streamEvts := reportStreamProgress "Downloading database"
    (w.contentLength databaseUrl) (w.bytesSeen databaseUrl)
  match w.fetchOutcome databaseUrl with
  | .requestTimeout => (.error .requestTimedOut, evts0)
  | .failingResponse msg => (.error (.remoteFetch msg), evts0)
  | .streamTimeout =>
    (.error .downloadTimedOut,
     evts0 ++ [Event.fsCreate archivePath] ++ streamEvts ++
       [Event.fsRemove archivePath])
  | .streamFailure msg =>
    (.error (.streamFailure msg),
     evts0 ++ [Event.fsCreate archivePath] ++ streamEvts ++
       [Event.fsRemove archivePath])
  | .success =>
    let (r, evts1) := readAndUnzip w ("file://" ++ archivePath) unzipPath
    match r with
    | .error e =>
      (.error e,
       evts0 ++ [Event.fsCreate archivePath] ++ streamEvts ++ evts1)
    | .ok _ =>
      (.ok (),
       evts0 ++ [Event.fsCreate archivePath] ++ streamEvts ++ evts1 ++
         [Event.fsRemove archivePath])

/-- The outcome of a successful import: the registered database root and the
on-disk `src`/`src.zip` state at that root after normalization. -/
structure ImportResult where
  dbPath : String
  srcAfter : SrcState
deriving Repr, DecidableEq

/-- `databaseArchiveFetcher(databaseUrl, requestHeaders, databaseManager,
storagePath, nameOverride, origin, progress, cli)` (lines 347–409): report
step 1 of 4, require a storage path, ensure the storage directory, compute
the unzip folder, read-or-fetch and unzip, report step 3 of 4, locate the
database root by marker file, report step 4 of 4, normalize the source
archive, and register the database. -/
def databaseArchiveFetcher (w : Collab) (databaseUrl storagePath : String)
    (origin : DatabaseOrigin) (nameOverride : Option String) :
    Except FetchError ImportResult × List Event :=
  let evts0 := [Event.progressReport "Getting database" 1 4]
  if storagePath.data = [] then (.error .noStoragePath, evts0)
  else
    let evts1 := evts0 ++ [Event.ensureDir storagePath]
    match getStorageFolder w.pathExists w.realpath storagePath
        (uriPath databaseUrl) with
    | .error e => (.error e, evts1)
    | .ok unzipPath =>
      let (r, evts2) :=
        if isFile databaseUrl then readAndUnzip w databaseUrl unzipPath
        else fetchAndUnzip w databaseUrl unzipPath
      match r with
      | .error e => (.error e, evts1 ++ evts2)
      | .ok _ =>
        let evts3 :=
          evts1 ++ evts2 ++ [Event.progressReport "Opening database" 3 4]
        match findDirWithFile unzipPath (w.unpackedTree unzipPath)
            [".dbinfo", "codeql-database.yml"] with
        | none => (.error .databaseNotFound, evts3)
        | some dbPath =>
          let evts4 := evts3 ++
            [Event.progressReport "Validating and fixing source location" 4 4]
          let srcAfter := ensureZippedSourceLocation w.zipFn (w.srcState dbPath)
          (.ok ⟨dbPath, srcAfter⟩,
           evts4 ++ [Event.openDatabase dbPath origin nameOverride])

/-- `promptImportInternetDatabase(...)` (lines 49–87): ask the user for a
URL (abandon silently when dismissed), validate it, then fetch; on success
focus the databases view. -/
def promptImportInternetDatabase (w : Collab) (userInput : Option String)
    (storagePath : String) :
    Except FetchError (Option ImportResult) × List Event :=
  match userInput with
  | none => (.ok none, [Event.showInputBox])
  | some databaseUrl =>
    match validateUrl w.allowHttp databaseUrl with
    | .error e => (.error e, [Event.showInputBox])
    | .ok _ =>
      let (r, evts) := databaseArchiveFetcher w databaseUrl storagePath
        (.url databaseUrl) none
      match r with
      | .error e => (.error e, Event.showInputBox :: evts)
      | .ok item =>
        (.ok (some item),
         Event.showInputBox :: evts ++
           [Event.executeCommand "codeQLDatabases.focus"])

/-- `downloadGitHubDatabaseFromUrl(...)` (lines 233–280): build the request
headers from the token of `octokit.auth()` and delegate directly to
`databaseArchiveFetcher` with a GitHub origin — note that no URL validation
is applied to the API-supplied `databaseUrl`. -/
def downloadGitHubDatabaseFromUrl (w : Collab) (databaseUrl : String)
    (databaseId : Nat) (databaseCreatedAt : String) (commitOid : Option String)
    (owner name storagePath : String) :
    Except FetchError ImportResult × List Event :=
  databaseArchiveFetcher w databaseUrl storagePath
    (.github (owner ++ "/" ++ name) databaseId databaseCreatedAt commitOid)
    (some (owner ++ "/" ++ name))

/-- The first segment of `nwo.split("/")`. -/
def nwoOwner (nwo : String) : String := ⟨(splitSlash nwo.data).headD []⟩

/-- The second segment of `nwo.split("/")`. -/
def nwoRepo (nwo : String) : String :=
  ⟨((splitSlash nwo.data).drop 1).headD []⟩

/-- The resolution returned by `convertGithubNwoToDatabaseUrl`. -/
structure DatabaseUrlResult where
  databaseUrl : String
  owner : String
  name : String
  databaseId : Nat
  databaseCreatedAt : String
  commitOid : Option String
deriving Repr, DecidableEq

/-- Code-point lexicographic comparison of labels: the model of
`a.label.localeCompare(b.label) <= 0` (locale collation abstracted to
code-point order). -/
def labelLe : List Char → List Char → Bool
  | [], _ => true
  | _ :: _, [] => false
  | a :: as, b :: bs =>
    if a = b then labelLe as bs else decide (a.val.toNat ≤ b.val.toNat)

/-- Insert an item into a label-sorted item list. -/
def insertByLabel (x : String × String) :
    List (String × String) → List (String × String)
  | [] => [x]
  | y :: ys =>
    if labelLe x.1.data y.1.data then x :: y :: ys
    else y :: insertByLabel x ys

/-- The `.sort((a, b) => a.label.localeCompare(b.label))` of
`promptForLanguage`, modelled as insertion sort by label. -/
def sortByLabel : List (String × String) → List (String × String)
  | [] => []
  | x :: xs => insertByLabel x (sortByLabel xs)

/-- `promptForLanguage(languages, progress)` (lines 675–708): report step 2
of 2, fail when no language is available, auto-select a sole language
without showing the picker, otherwise show the quick pick over the
display-labelled items sorted by label (locale collation abstracted to
code-point order, and `Array.prototype.sort` modelled as insertion sort; the
item order never affects a claim) and return `undefined` cleanly when the
user declines. -/
def promptForLanguage (w : Collab) (languages : List String) :
    Except FetchError (Option String) × List Event :=
  let evts := [Event.progressReport "Choose language" 2 2]
  match languages with
  | [] => (.error .noDatabases, evts)
  | [l] => (.ok (some l), evts)
  | _ =>
    let items := sortByLabel (languages.map (fun l => (w.displayName l, l)))
    match w.pick items with
    | none => (.ok none, evts ++ [Event.showQuickPick])
    | some item => (.ok (some item.2), evts ++ [Event.showQuickPick])

/-- The `try` body of `convertGithubNwoToDatabaseUrl` (lines 637–668): split
the name-with-owner, list the available databases, resolve the language
(directly when the supplied argument is among the available languages, else
via `promptForLanguage`), abort with "not chosen" when the picker is
declined, and fail when no listed entry carries the chosen language. -/
def convertGithubNwoToDatabaseUrlBody (w : Collab) (nwo : String)
    (language : Option String) :
    Except FetchError (Option DatabaseUrlResult) × List Event :=
  let owner := nwoOwner nwo
  let repo := nwoRepo nwo
  let evts0 := [Event.apiListDatabases nwo]
  match w.listDatabases owner repo with
  | .error msg => (.error (.apiFailure msg), evts0)
  | .ok data =>
    let languages := data.map (fun db => db.language)
    let (langRes, evts1) :=
      match language with
      | some l =>
        if languages.contains l then (Except.ok (some l), ([] : List Event))
        else promptForLanguage w languages
      | none => promptForLanguage w languages
    match langRes with
    | .error e => (.error e, evts0 ++ evts1)
    | .ok none => (.ok none, evts0 ++ evts1)
    | .ok (some lang) =>
      match data.find? (fun db => db.language == lang) with
      | none => (.error (.noDatabaseForLanguage lang), evts0 ++ evts1)
      | some db =>
        (.ok (some ⟨db.url, owner, repo, db.id, db.created_at, db.commit_oid⟩),
         evts0 ++ evts1)

/-- `convertGithubNwoToDatabaseUrl` (lines 621–673): the body wrapped in the
catch-all `try/catch` that logs every failure and rethrows it as the generic
lookup error naming the repository. -/
def convertGithubNwoToDatabaseUrl (w : Collab) (nwo : String)
    (language : Option String) :
    Except FetchError (Option DatabaseUrlResult) × List Event :=
  match convertGithubNwoToDatabaseUrlBody w nwo language with
  | (.error e, evts) =>
    (.error (.databaseLookup nwo),
     evts ++ [Event.logMessage ("Error: " ++ errorMessage e)])
  | (.ok v, evts) => (.ok v, evts)

/-- `downloadGitHubDatabase(githubRepo, ...)` (lines 181–231): normalize the
input to a name-with-owner via `getNwoFromGitHubUrl` (falling back to the
raw input), reject an invalid repository before any credential, network,
prompt or filesystem activity, then resolve via
`convertGithubNwoToDatabaseUrl` and download.  The two URL-identifier
helpers live outside the fetcher module and enter as parameters. -/
def downloadGitHubDatabase (w : Collab)
    (getNwoFromGitHubUrl : String → Option String)
    (isValidGitHubNwo : String → Bool) (githubRepo storagePath : String)
    (language : Option String) :
    Except FetchError (Option ImportResult) × List Event :=
  let nwo := (getNwoFromGitHubUrl githubRepo).getD githubRepo
  if !isValidGitHubNwo nwo then (.error (.invalidRepo githubRepo), [])
  else
    match convertGithubNwoToDatabaseUrl w nwo language with
    | (.error e, evts) => (.error e, evts)
    | (.ok none, evts) => (.ok none, evts)
    | (.ok (some res), evts) =>
      let (r2, evts2) := downloadGitHubDatabaseFromUrl w res.databaseUrl
        res.databaseId res.databaseCreatedAt res.commitOid res.owner res.name
        storagePath
      match r2 with
      | .error e => (.error e, evts ++ evts2)
      | .ok item => (.ok (some item), evts ++ evts2)

theorem uriFsPath_file_concat (p : String) : uriFsPath ("file://" ++ p) = p := by
  have hd : ("file://" ++ p).data =
      ['f', 'i', 'l', 'e', ':', '/', '/'] ++ p.data := by
    rw [String.data_append]
  have ht : (['f', 'i', 'l', 'e', ':', '/', '/'] ++ p.data).take 7 =
      ['f', 'i', 'l', 'e', ':', '/', '/'] := by
    rw [List.take_append_of_le_length (by simp)]
    rfl
  have hdr : (['f', 'i', 'l', 'e', ':', '/', '/'] ++ p.data).drop 7 = p.data := by
    rw [List.drop_append_of_le_length (by simp)]
    rfl
  simp [uriFsPath, hd, ht, hdr]

theorem getStorageFolder_all_free (realpathFn : String → String)
    (sp up : String) :
    getStorageFolder (fun _ => false) realpathFn sp up =
      .ok (candidateName (realpathFn sp) (storageBaseName up) 0) := by
  rw [getStorageFolder_eq_find]
  rfl

theorem databaseArchiveFetcher_local_ok (w : Collab)
    (url sp : String) (origin : DatabaseOrigin) (no : Option String)
    (unzipPath dbPath : String)
    (hsp : ¬sp.data = [])
    (hsf : getStorageFolder w.pathExists w.realpath sp (uriPath url) =
      .ok unzipPath)
    (hfile : isFile url = true)
    (hub : w.unbundle (uriFsPath url) unzipPath = .ok ())
    (hfind : findDirWithFile unzipPath (w.unpackedTree unzipPath)
      [".dbinfo", "codeql-database.yml"] = some dbPath) :
    databaseArchiveFetcher w url sp origin no =
      (.ok ⟨dbPath, ensureZippedSourceLocation w.zipFn (w.srcState dbPath)⟩,
       [Event.progressReport "Getting database" 1 4,
        Event.ensureDir sp,
        Event.progressReport ("Unzipping into " ++ basename unzipPath) 9 10,
        Event.unbundle (uriFsPath url) unzipPath,
        Event.progressReport "Opening database" 3 4,
        Event.progressReport "Validating and fixing source location" 4 4,
        Event.openDatabase dbPath origin no]) := by
  simp only [databaseArchiveFetcher, if_neg hsp, hsf, hfile, if_true,
    readAndUnzip, hub, hfind]
  rfl

theorem databaseArchiveFetcher_remote_ok (w : Collab)
    (url sp : String) (origin : DatabaseOrigin) (no : Option String)
    (unzipPath dbPath : String)
    (hsp : ¬sp.data = [])
    (hsf : getStorageFolder w.pathExists w.realpath sp (uriPath url) =
      .ok unzipPath)
    (hfile : isFile url = false)
    (hfo : w.fetchOutcome url = .success)
    (hub : w.unbundle (tmpArchivePath w) unzipPath = .ok ())
    (hfind : findDirWithFile unzipPath (w.unpackedTree unzipPath)
      [".dbinfo", "codeql-database.yml"] = some dbPath) :
    databaseArchiveFetcher w url sp origin no =
      (.ok ⟨dbPath, ensureZippedSourceLocation w.zipFn (w.srcState dbPath)⟩,
       [Event.progressReport "Getting database" 1 4,
        Event.ensureDir sp,
        Event.progressReport "Downloading database" 1 3,
        Event.networkRequest url,
        Event.fsCreate (tmpArchivePath w)] ++
       reportStreamProgress "Downloading database" (w.contentLength url)
         (w.bytesSeen url) ++
       [Event.progressReport ("Unzipping into " ++ basename unzipPath) 9 10,
        Event.unbundle (tmpArchivePath w) unzipPath,
        Event.fsRemove (tmpArchivePath w),
        Event.progressReport "Opening database" 3 4,
        Event.progressReport "Validating and fixing source location" 4 4,
        Event.openDatabase dbPath origin no]) := by
  simp only [databaseArchiveFetcher, if_neg hsp, hsf, hfile, if_false,
    fetchAndUnzip, hfo, readAndUnzip, uriFsPath_file_concat, hub, hfind]
  simp

theorem databaseArchiveFetcher_srcAfter (w : Collab) (url sp : String)
    (origin : DatabaseOrigin) (no : Option String) (r : ImportResult)
    (evts : List Event)
    (h : databaseArchiveFetcher w url sp origin no = (.ok r, evts)) :
    r.srcAfter = ensureZippedSourceLocation w.zipFn (w.srcState r.dbPath) := by
  unfold databaseArchiveFetcher at h
  split at h
  · simp at h
  · split at h
    · simp at h
    · split at h
      split at h
      · simp at h
      · split at h
        · simp at h
        · simp only [Prod.mk.injEq, Except.ok.injEq] at h
          obtain ⟨hr, -⟩ := h
          subst hr
          rfl

/-- A concrete collaborator assembly for closed witnesses and
counterexamples: an empty storage root, successful transport and
unbundling, an unpacked tree bearing `.dbinfo` at its root, a loose `src`
and no `src.zip`. -/
def collabBase : Collab where
  pathExists := fun _ => false
  realpath := id
  fetchOutcome := fun _ => .success
  contentLength := fun _ => none
  bytesSeen := fun _ => []
  unbundle := fun _ _ => .ok ()
  unpackedTree := fun _ =>
    FsEntry.dir "db" [FsEntry.file ".dbinfo", FsEntry.dir "src" []]
  srcState := fun _ => ⟨some "srcContent", none⟩
  zipFn := fun _ => "zipContent"
  tmpDirName := "tmp"
  now := 0
  pick := fun _ => none
  displayName := id
  listDatabases := fun _ _ => .ok []
  authToken := none
  allowHttp := false

/-- As `collabBase`, but the unpacked archive already contains both a loose
`src` directory and a `src.zip`. -/
def collabBoth : Collab :=
  { collabBase with
    unpackedTree := fun _ =>
      FsEntry.dir "db"
        [FsEntry.file ".dbinfo", FsEntry.dir "src" [], FsEntry.file "src.zip"],
    srcState := fun _ => ⟨some "srcContent", some "zipContent"⟩ }

/-- Counterexample to C4 as stated: importing an archive that already
contains both a loose `src` directory and a `src.zip` succeeds and leaves
the registered database directory with both (`ensureZippedSourceLocation`
only zips when `src` exists and `src.zip` does not). -/
theorem importSrcInvariant_counterexample :
    (databaseArchiveFetcher collabBoth "file:///tmp/db.zip" "store"
        (.archive "file:///tmp/db.zip") none).1 =
      .ok ⟨"store/db", ⟨some "srcContent", some "zipContent"⟩⟩ := by
  have hsf : getStorageFolder collabBoth.pathExists collabBoth.realpath
      "store" (uriPath "file:///tmp/db.zip") = .ok "store/db" := by
    rw [getStorageFolder_eq_find]
    decide
  rw [databaseArchiveFetcher_local_ok collabBoth "file:///tmp/db.zip" "store"
    (.archive "file:///tmp/db.zip") none "store/db" "store/db"
    (by decide) hsf (by decide) rfl
    (by simp [findDirWithFile, FsEntry.name, collabBoth, collabBase])]
  simp [collabBoth, collabBase, ensureZippedSourceLocation]

/-- C4 (amended): after every successful import, if the unpacked archive's
database root did not already hold both a loose `src` directory and a
`src.zip`, then the registered directory holds at most one of them; an
archive that already contains both is registered with both. -/
theorem importSrcInvariant_amended_claim :
    ∀ (w : Collab) (url sp : String) (origin : DatabaseOrigin)
      (no : Option String) (r : ImportResult) (evts : List Event),
      databaseArchiveFetcher w url sp origin no = (.ok r, evts) →
      ¬((w.srcState r.dbPath).srcDir.isSome ∧
        (w.srcState r.dbPath).srcZip.isSome) →
      ¬(r.srcAfter.srcDir.isSome ∧ r.srcAfter.srcZip.isSome) := by
  intro w url sp origin no r evts h hpre
  rw [databaseArchiveFetcher_srcAfter w url sp origin no r evts h]
  rcases hs : w.srcState r.dbPath with ⟨d, z⟩
  rw [hs] at hpre
  cases d <;> cases z <;> simp_all [ensureZippedSourceLocation]

/-- Witness for the amended C4 at a concrete import whose archive holds a
loose `src` and no `src.zip`: the import succeeds and the registered
directory holds only `src.zip`. -/
theorem importSrcInvariant_amended_claim_witness :
    databaseArchiveFetcher collabBase "file:///tmp/db.zip" "store"
        (.archive "file:///tmp/db.zip") none =
      (.ok ⟨"store/db", ⟨none, some "zipContent"⟩⟩,
       [Event.progressReport "Getting database" 1 4,
        Event.ensureDir "store",
        Event.progressReport "Unzipping into db" 9 10,
        Event.unbundle "/tmp/db.zip" "store/db",
        Event.progressReport "Opening database" 3 4,
        Event.progressReport "Validating and fixing source location" 4 4,
        Event.openDatabase "store/db" (.archive "file:///tmp/db.zip") none]) ∧
    ¬(((SrcState.mk none (some "zipContent")).srcDir.isSome) ∧
      ((SrcState.mk none (some "zipContent")).srcZip.isSome)) := by
  have hsf : getStorageFolder collabBase.pathExists collabBase.realpath
      "store" (uriPath "file:///tmp/db.zip") = .ok "store/db" := by
    rw [getStorageFolder_eq_find]
    decide
  have h : databaseArchiveFetcher collabBase "file:///tmp/db.zip" "store"
      (.archive "file:///tmp/db.zip") none =
      (.ok ⟨"store/db", ⟨none, some "zipContent"⟩⟩,
       [Event.progressReport "Getting database" 1 4,
        Event.ensureDir "store",
        Event.progressReport "Unzipping into db" 9 10,
        Event.unbundle "/tmp/db.zip" "store/db",
        Event.progressReport "Opening database" 3 4,
        Event.progressReport "Validating and fixing source location" 4 4,
        Event.openDatabase "store/db" (.archive "file:///tmp/db.zip") none]) := by
    rw [databaseArchiveFetcher_local_ok collabBase "file:///tmp/db.zip" "store"
      (.archive "file:///tmp/db.zip") none "store/db" "store/db"
      (by decide) hsf (by decide) rfl
      (by simp [findDirWithFile, FsEntry.name, collabBase])]
    simp [collabBase, ensureZippedSourceLocation, basename, splitSlash,
      uriFsPath]
  exact ⟨h, by
    exact importSrcInvariant_amended_claim collabBase "file:///tmp/db.zip"
      "store" (.archive "file:///tmp/db.zip") none
      ⟨"store/db", ⟨none, some "zipContent"⟩⟩ _ h (by simp [collabBase])⟩

/-- Counterexample to C5 as stated: with the allow-insecure flag unset,
`validateUrl` would reject `http://example.com/db.zip`, yet a GitHub
API-supplied download of exactly that URL proceeds to the network request
and completes without any insecure-transport failure —
`downloadGitHubDatabaseFromUrl` never invokes the validator. -/
theorem validateUrl_github_counterexample :
    collabBase.allowHttp = false ∧
    validateUrl collabBase.allowHttp "http://example.com/db.zip" =
      .error .insecureTransport ∧
    (downloadGitHubDatabaseFromUrl collabBase "http://example.com/db.zip" 7
        "2024-01-01" none "owner" "repo" "store").1 =
      .ok ⟨"store/db", ⟨none, some "zipContent"⟩⟩ ∧
    Event.networkRequest "http://example.com/db.zip" ∈
      (downloadGitHubDatabaseFromUrl collabBase "http://example.com/db.zip" 7
        "2024-01-01" none "owner" "repo" "store").2 := by
  have hsf : getStorageFolder collabBase.pathExists collabBase.realpath
      "store" (uriPath "http://example.com/db.zip") = .ok "store/db" := by
    rw [getStorageFolder_eq_find]
    decide
  have h := databaseArchiveFetcher_remote_ok collabBase
    "http://example.com/db.zip" "store" (.github ("owner" ++ "/" ++ "repo") 7
      "2024-01-01" none) (some ("owner" ++ "/" ++ "repo")) "store/db"
    "store/db" (by decide) hsf (by decide) rfl rfl
    (by simp [findDirWithFile, FsEntry.name, collabBase])
  refine ⟨rfl, by decide, ?_, ?_⟩
  · simp only [downloadGitHubDatabaseFromUrl, h]
    simp [collabBase, ensureZippedSourceLocation]
  · simp only [downloadGitHubDatabaseFromUrl, h]
    simp

/-- C5 (amended): `validateUrl` rejects an unparsable location with the
invalid-URL error, rejects a non-`https` scheme with the insecure-transport
error unless the allow-insecure flag is set, and accepts an `https` URL
unconditionally; the user-entered import path validates before anything
else happens (a validation failure produces no network, filesystem or
further UI activity); the GitHub API-supplied path, however, hands the URL
directly to the fetcher without invoking the validator. -/
theorem validateUrl_amended_claim :
    (∀ (allowHttp : Bool) (url : String), parseUriStrict url = none →
      validateUrl allowHttp url = .error (.invalidUrl url)) ∧
    (∀ (url sch : String), parseUriStrict url = some sch →
      sch ≠ "https" → validateUrl false url = .error .insecureTransport) ∧
    (∀ (allowHttp : Bool) (url : String), parseUriStrict url = some "https" →
      validateUrl allowHttp url = .ok ()) ∧
    (∀ (w : Collab) (sp url : String) (e : FetchError),
      validateUrl w.allowHttp url = .error e →
      promptImportInternetDatabase w (some url) sp =
        (.error e, [Event.showInputBox])) ∧
    (∀ (w : Collab) (url : String) (dbId : Nat) (createdAt : String)
        (commitOid : Option String) (owner name sp : String),
      downloadGitHubDatabaseFromUrl w url dbId createdAt commitOid owner name
          sp =
        databaseArchiveFetcher w url sp
          (.github (owner ++ "/" ++ name) dbId createdAt commitOid)
          (some (owner ++ "/" ++ name))) := by
  refine ⟨?_, ?_, ?_, ?_, fun _ _ _ _ _ _ _ _ => rfl⟩
  · intro allowHttp url h
    simp only [validateUrl, h]
  · intro url sch h hne
    simp only [validateUrl, h]
    simp [hne]
  · intro allowHttp url h
    simp only [validateUrl, h]
    simp
  · intro w sp url e h
    simp only [promptImportInternetDatabase, h]

/-- Witness for the amended C5 at concrete URLs: `not-a-url` is rejected as
invalid, `http://example.com/db.zip` as insecure (flag unset) — and through
the user-entered path the import stops at the input box — while
`https://example.com/db.zip` passes for either flag value. -/
theorem validateUrl_amended_claim_witness :
    validateUrl true "not-a-url" = .error (.invalidUrl "not-a-url") ∧
    validateUrl false "http://example.com/db.zip" =
      .error .insecureTransport ∧
    validateUrl false "https://example.com/db.zip" = .ok () ∧
    validateUrl true "https://example.com/db.zip" = .ok () ∧
    promptImportInternetDatabase collabBase
        (some "http://example.com/db.zip") "store" =
      (.error .insecureTransport, [Event.showInputBox]) := by
  refine ⟨validateUrl_amended_claim.1 true "not-a-url" (by decide),
    validateUrl_amended_claim.2.1 "http://example.com/db.zip" "http"
      (by decide) (by decide),
    validateUrl_amended_claim.2.2.1 false "https://example.com/db.zip"
      (by decide),
    validateUrl_amended_claim.2.2.1 true "https://example.com/db.zip"
      (by decide),
    validateUrl_amended_claim.2.2.2.1 collabBase "store"
      "http://example.com/db.zip" .insecureTransport (by decide)⟩

/-- C6: language resolution in the GitHub resolver — a supplied language
that is among the available languages is selected directly (no prompt event
at all); with no matching argument and exactly one available language that
language is auto-selected without the quick pick; with several available
languages the quick pick is shown, and a declined pick aborts the whole
resolution with "not chosen" and no error. -/
theorem convertGithubNwo_language_claim :
    (∀ (w : Collab) (nwo lang : String) (data : List CodeqlDatabase)
        (db : CodeqlDatabase),
      w.listDatabases (nwoOwner nwo) (nwoRepo nwo) = .ok data →
      data.find? (fun d => d.language == lang) = some db →
      convertGithubNwoToDatabaseUrl w nwo (some lang) =
        (.ok (some ⟨db.url, nwoOwner nwo, nwoRepo nwo, db.id, db.created_at,
          db.commit_oid⟩), [Event.apiListDatabases nwo])) ∧
    (∀ (w : Collab) (nwo : String) (db : CodeqlDatabase)
        (larg : Option String),
      w.listDatabases (nwoOwner nwo) (nwoRepo nwo) = .ok [db] →
      (∀ l0, larg = some l0 → db.language ≠ l0) →
      convertGithubNwoToDatabaseUrl w nwo larg =
        (.ok (some ⟨db.url, nwoOwner nwo, nwoRepo nwo, db.id, db.created_at,
          db.commit_oid⟩),
         [Event.apiListDatabases nwo,
          Event.progressReport "Choose language" 2 2])) ∧
    (∀ (w : Collab) (nwo : String) (d1 d2 : CodeqlDatabase)
        (rest : List CodeqlDatabase) (larg : Option String),
      w.listDatabases (nwoOwner nwo) (nwoRepo nwo) = .ok (d1 :: d2 :: rest) →
      (∀ l0, larg = some l0 →
        (((d1 :: d2 :: rest).map (fun d => d.language)).contains l0) = false) →
      w.pick (sortByLabel (((d1 :: d2 :: rest).map (fun d => d.language)).map
        (fun l => (w.displayName l, l)))) = none →
      convertGithubNwoToDatabaseUrl w nwo larg =
        (.ok none,
         [Event.apiListDatabases nwo,
          Event.progressReport "Choose language" 2 2,
          Event.showQuickPick])) := by
  refine ⟨?_, ?_, ?_⟩
  · intro w nwo lang data db hlist hfind
    have hmem : db ∈ data := List.mem_of_find?_eq_some hfind
    have hlang := List.find?_some hfind
    have hcont : ((data.map (fun d => d.language)).contains lang) = true := by
      have hm : lang ∈ data.map (fun d => d.language) :=
        List.mem_map.mpr ⟨db, hmem, by simpa using hlang⟩
      simpa using hm
    have hbody : convertGithubNwoToDatabaseUrlBody w nwo (some lang) =
        (.ok (some ⟨db.url, nwoOwner nwo, nwoRepo nwo, db.id, db.created_at,
          db.commit_oid⟩), [Event.apiListDatabases nwo]) := by
      simp only [convertGithubNwoToDatabaseUrlBody, hlist, hcont, if_true,
        hfind]
      rfl
    simp only [convertGithubNwoToDatabaseUrl, hbody]
  · intro w nwo db larg hlist hne
    have hprompt : promptForLanguage w [db.language] =
        (.ok (some db.language),
         [Event.progressReport "Choose language" 2 2]) := rfl
    have hfind : ([db].find? (fun d => d.language == db.language)) =
        some db := by
      simp [List.find?]
    have hbody : convertGithubNwoToDatabaseUrlBody w nwo larg =
        (.ok (some ⟨db.url, nwoOwner nwo, nwoRepo nwo, db.id, db.created_at,
          db.commit_oid⟩),
         [Event.apiListDatabases nwo,
          Event.progressReport "Choose language" 2 2]) := by
      cases larg with
      | none =>
        simp only [convertGithubNwoToDatabaseUrlBody, hlist, List.map_cons,
          List.map_nil, hprompt, hfind]
        rfl
      | some l0 =>
        have hc : (([db.language] : List String).contains l0) = false := by
          simpa using Ne.symm (hne l0 rfl)
        simp only [convertGithubNwoToDatabaseUrlBody, hlist, List.map_cons,
          List.map_nil, hc, Bool.false_eq_true, if_false, hprompt, hfind]
        rfl
    simp only [convertGithubNwoToDatabaseUrl, hbody]
  · intro w nwo d1 d2 rest larg hlist hnc hpick
    have hpick' := hpick
    simp only [List.map_cons, List.map_map] at hpick'
    have hprompt : promptForLanguage w
        ((d1 :: d2 :: rest).map (fun d => d.language)) =
        (.ok none,
         [Event.progressReport "Choose language" 2 2,
          Event.showQuickPick]) := by
      simp only [promptForLanguage, List.map_cons, List.map_map, hpick']
      rfl
    have hbody : convertGithubNwoToDatabaseUrlBody w nwo larg =
        (.ok none,
         [Event.apiListDatabases nwo,
          Event.progressReport "Choose language" 2 2,
          Event.showQuickPick]) := by
      cases larg with
      | none =>
        simp only [convertGithubNwoToDatabaseUrlBody, hlist, hprompt]
        rfl
      | some l0 =>
        have hc := hnc l0 rfl
        simp only [convertGithubNwoToDatabaseUrlBody, hlist, hc,
          Bool.false_eq_true, if_false, hprompt]
        rfl
    simp only [convertGithubNwoToDatabaseUrl, hbody]

/-- A concrete Python database entry of the listing. -/
def pyDb : CodeqlDatabase := ⟨"python", "https://api/py.zip", 1, "2024-01-01", none⟩

/-- A concrete Java database entry of the listing. -/
def javaDb : CodeqlDatabase :=
  ⟨"java", "https://api/java.zip", 2, "2024-01-02", some "abc"⟩

/-- As `collabBase`, with a single-language listing. -/
def collabPy : Collab :=
  { collabBase with listDatabases := fun _ _ => .ok [pyDb] }

/-- As `collabBase`, with a two-language listing (the picker declines). -/
def collabTwo : Collab :=
  { collabBase with listDatabases := fun _ _ => .ok [pyDb, javaDb] }

/-- Witness for C6: with languages python and java a supplied `python` is
selected directly with no prompt event; with python alone and no argument
the resolution completes with only the progress report, no quick pick; with
two languages and no argument the quick pick is shown and a declined pick
yields "not chosen" without error. -/
theorem convertGithubNwo_language_claim_witness :
    convertGithubNwoToDatabaseUrl collabTwo "o/r" (some "python") =
      (.ok (some ⟨"https://api/py.zip", "o", "r", 1, "2024-01-01", none⟩),
       [Event.apiListDatabases "o/r"]) ∧
    convertGithubNwoToDatabaseUrl collabPy "o/r" none =
      (.ok (some ⟨"https://api/py.zip", "o", "r", 1, "2024-01-01", none⟩),
       [Event.apiListDatabases "o/r",
        Event.progressReport "Choose language" 2 2]) ∧
    convertGithubNwoToDatabaseUrl collabTwo "o/r" none =
      (.ok none,
       [Event.apiListDatabases "o/r",
        Event.progressReport "Choose language" 2 2,
        Event.showQuickPick]) := by
  refine ⟨?_, ?_, ?_⟩
  · exact convertGithubNwo_language_claim.1 collabTwo "o/r" "python"
      [pyDb, javaDb] pyDb rfl (by decide)
  · exact convertGithubNwo_language_claim.2.1 collabPy "o/r" pyDb none rfl
      (fun l0 h => nomatch h)
  · exact convertGithubNwo_language_claim.2.2 collabTwo "o/r" pyDb javaDb []
      none rfl (fun l0 h => nomatch h) rfl

/-- As `collabBase`, with a two-language listing and a picker collaborator
that answers with an item outside the offered set (as a mocked or raced UI
collaborator can). -/
def collabAdversary : Collab :=
  { collabBase with
    listDatabases := fun _ _ => .ok [pyDb, javaDb],
    pick := fun _ => some ("Go", "go") }

/-- Counterexample to C7 as stated: when, after selection, no listed entry
matches the chosen language, the body does raise the
no-database-for-language error naming the language — but the resolver's
catch-all replaces it, and the caller receives the generic lookup error
naming the repository, exactly the error that also wraps transport
failures, not the inner error unchanged. -/
theorem convertGithubNwo_wrap_counterexample :
    (convertGithubNwoToDatabaseUrlBody collabAdversary "o/r" (some "ruby")).1 =
      .error (.noDatabaseForLanguage "go") ∧
    (convertGithubNwoToDatabaseUrl collabAdversary "o/r" (some "ruby")).1 =
      .error (.databaseLookup "o/r") ∧
    FetchError.databaseLookup "o/r" ≠
      FetchError.noDatabaseForLanguage "go" := by
  refine ⟨by decide, by decide, by decide⟩

/-- C7 (amended): every failure raised inside the resolver body — the
no-database-for-language error and the empty-listing error included, not
only transport failures — is caught by the resolver's catch-all, logged,
and surfaced to the caller as the generic lookup error naming the
repository; the inner error therefore never reaches the caller unchanged. -/
theorem convertGithubNwo_wrap_amended_claim :
    ∀ (w : Collab) (nwo : String) (larg : Option String) (e : FetchError)
      (evts : List Event),
      convertGithubNwoToDatabaseUrlBody w nwo larg = (.error e, evts) →
      convertGithubNwoToDatabaseUrl w nwo larg =
        (.error (.databaseLookup nwo),
         evts ++ [Event.logMessage ("Error: " ++ errorMessage e)]) := by
  intro w nwo larg e evts h
  simp only [convertGithubNwoToDatabaseUrl, h]

/-- Witness for the amended C7 at the adversarial picker: the inner
no-database-for-language failure surfaces as the lookup error, with the log
carrying the inner message. -/
theorem convertGithubNwo_wrap_amended_claim_witness :
    convertGithubNwoToDatabaseUrl collabAdversary "o/r" (some "ruby") =
      (.error (.databaseLookup "o/r"),
       [Event.apiListDatabases "o/r",
        Event.progressReport "Choose language" 2 2,
        Event.showQuickPick,
        Event.logMessage "Error: No database found for language 'go'"]) := by
  exact convertGithubNwo_wrap_amended_claim collabAdversary "o/r"
    (some "ruby") (.noDatabaseForLanguage "go")
    [Event.apiListDatabases "o/r",
     Event.progressReport "Choose language" 2 2,
     Event.showQuickPick] (by decide)

/-- As `collabBase`, but the CLI unbundler fails (corrupt archive). -/
def collabBadZip : Collab :=
  { collabBase with unbundle := fun _ _ => .error "unexpected end of file" }

/-- Counterexample to C8 as stated: when the unzip step fails after a
completed download, the failure path of `fetchAndUnzip` performs no deletion
of the temporary archive — the file is created, the unbundle failure is the
terminal outcome, and no removal event occurs. -/
theorem fetchAndUnzip_cleanup_counterexample :
    fetchAndUnzip collabBadZip "https://example.com/db.zip" "store/db" =
      (.error (.unbundleFailure "unexpected end of file"),
       [Event.progressReport "Downloading database" 1 3,
        Event.networkRequest "https://example.com/db.zip",
        Event.fsCreate (tmpArchivePath collabBadZip),
        Event.progressReport "Unzipping into db" 9 10,
        Event.unbundle (tmpArchivePath collabBadZip) "store/db"]) ∧
    Event.fsCreate (tmpArchivePath collabBadZip) ∈
      (fetchAndUnzip collabBadZip "https://example.com/db.zip" "store/db").2 ∧
    Event.fsRemove (tmpArchivePath collabBadZip) ∉
      (fetchAndUnzip collabBadZip "https://example.com/db.zip" "store/db").2 := by
  refine ⟨by decide, by decide, by decide⟩

theorem fsRemove_not_mem_streamProgress (msg : String) (cl : Option Nat)
    (bs : List Nat) (p : String) :
    Event.fsRemove p ∉ reportStreamProgress msg cl bs := by
  cases cl <;> simp [reportStreamProgress]

/-- C8 (amended): the temporary archive is deleted unconditionally after a
successful unpack, and deleted (best effort, deletion failures never
surfaced) when the body stream times out or fails; the request-failure
branches create no file; but when the unzip step itself fails, the
temporary archive is not removed. -/
theorem fetchAndUnzip_cleanup_amended_claim :
    ∀ (w : Collab) (url unzipPath : String),
      (w.fetchOutcome url = .success →
        w.unbundle (tmpArchivePath w) unzipPath = .ok () →
        Event.fsRemove (tmpArchivePath w) ∈
          (fetchAndUnzip w url unzipPath).2) ∧
      (w.fetchOutcome url = .streamTimeout →
        Event.fsRemove (tmpArchivePath w) ∈
          (fetchAndUnzip w url unzipPath).2) ∧
      (∀ msg, w.fetchOutcome url = .streamFailure msg →
        Event.fsRemove (tmpArchivePath w) ∈
          (fetchAndUnzip w url unzipPath).2) ∧
      (∀ msg, w.fetchOutcome url = .success →
        w.unbundle (tmpArchivePath w) unzipPath = .error msg →
        Event.fsRemove (tmpArchivePath w) ∉
          (fetchAndUnzip w url unzipPath).2) ∧
      (w.fetchOutcome url = .requestTimeout →
        Event.fsCreate (tmpArchivePath w) ∉
          (fetchAndUnzip w url unzipPath).2) ∧
      (∀ msg, w.fetchOutcome url = .failingResponse msg →
        Event.fsCreate (tmpArchivePath w) ∉
          (fetchAndUnzip w url unzipPath).2) := by
  intro w url unzipPath
  refine ⟨?_, ?_, ?_, ?_, ?_, ?_⟩
  · intro hfo hub
    simp [fetchAndUnzip, hfo, readAndUnzip, uriFsPath_file_concat, hub]
  · intro hfo
    simp [fetchAndUnzip, hfo]
  · intro msg hfo
    simp [fetchAndUnzip, hfo]
  · intro msg hfo hub
    simp [fetchAndUnzip, hfo, readAndUnzip, uriFsPath_file_concat, hub,
      fsRemove_not_mem_streamProgress]
  · intro hfo
    simp [fetchAndUnzip, hfo]
  · intro msg hfo
    simp [fetchAndUnzip, hfo]

/-- Witness for the amended C8: with a succeeding unbundler the removal
event is in the trace; with a failing unbundler it is not. -/
theorem fetchAndUnzip_cleanup_amended_claim_witness :
    Event.fsRemove (tmpArchivePath collabBase) ∈
      (fetchAndUnzip collabBase "https://example.com/db.zip" "store/db").2 ∧
    Event.fsRemove (tmpArchivePath collabBadZip) ∉
      (fetchAndUnzip collabBadZip "https://example.com/db.zip" "store/db").2 :=
  ⟨(fetchAndUnzip_cleanup_amended_claim collabBase "https://example.com/db.zip"
      "store/db").1 rfl rfl,
   (fetchAndUnzip_cleanup_amended_claim collabBadZip
      "https://example.com/db.zip" "store/db").2.2.2.1
      "unexpected end of file" rfl rfl⟩

/-- The `(step, maxStep)` pairs delivered to the progress sink, in order. -/
def progressSteps (evts : List Event) : List (Nat × Nat) :=
  evts.filterMap (fun e =>
    match e with
    | .progressReport _ s m => some (s, m)
    | _ => none)

/-- Counterexample to C9 as stated: a successful local-archive import
delivers the step sequence (1 of 4), (9 of 10), (3 of 4), (4 of 4) to the
progress sink — 9 is followed by 3, so the step values of one top-level
operation are not monotonically non-decreasing. -/
theorem progressSteps_counterexample :
    progressSteps (databaseArchiveFetcher collabBase "file:///tmp/db.zip"
        "store" (.archive "file:///tmp/db.zip") none).2 =
      [(1, 4), (9, 10), (3, 4), (4, 4)] ∧
    ¬List.Chain' (fun a b => a.1 ≤ b.1)
      (progressSteps (databaseArchiveFetcher collabBase "file:///tmp/db.zip"
        "store" (.archive "file:///tmp/db.zip") none).2) := by
  have hsf : getStorageFolder collabBase.pathExists collabBase.realpath
      "store" (uriPath "file:///tmp/db.zip") = .ok "store/db" := by
    rw [getStorageFolder_eq_find]
    decide
  have h := databaseArchiveFetcher_local_ok collabBase "file:///tmp/db.zip"
    "store" (.archive "file:///tmp/db.zip") none "store/db" "store/db"
    (by decide) hsf (by decide) rfl
    (by simp [findDirWithFile, FsEntry.name, collabBase])
  rw [h]
  refine ⟨rfl, ?_⟩
  simp [progressSteps, List.chain'_cons]

/-- C9 (amended): the progress step values within one top-level import are
not monotonically non-decreasing: every successful local-archive import
delivers to the sink exactly the steps 1 (of 4), 9 (of 10), 3 (of 4),
4 (of 4), where the unzip step's 9 of 10 precedes the "Opening database"
report of 3 of 4. -/
theorem progressSteps_amended_claim :
    (∀ (w : Collab) (url sp : String) (origin : DatabaseOrigin)
        (no : Option String) (unzipPath dbPath : String),
      ¬sp.data = [] →
      getStorageFolder w.pathExists w.realpath sp (uriPath url) =
        .ok unzipPath →
      isFile url = true →
      w.unbundle (uriFsPath url) unzipPath = .ok () →
      findDirWithFile unzipPath (w.unpackedTree unzipPath)
        [".dbinfo", "codeql-database.yml"] = some dbPath →
      progressSteps (databaseArchiveFetcher w url sp origin no).2 =
        [(1, 4), (9, 10), (3, 4), (4, 4)]) ∧
    ¬List.Chain' (fun a b => a.1 ≤ b.1) [(1, 4), (9, 10), (3, 4), (4, 4)] := by
  refine ⟨?_, by simp [List.chain'_cons]⟩
  intro w url sp origin no unzipPath dbPath hsp hsf hfile hub hfind
  rw [databaseArchiveFetcher_local_ok w url sp origin no unzipPath dbPath
    hsp hsf hfile hub hfind]
  rfl

/-- Witness for the amended C9 at a concrete local import. -/
theorem progressSteps_amended_claim_witness :
    progressSteps (databaseArchiveFetcher collabBase "file:///tmp/db.zip"
        "st" (.archive "file:///tmp/db.zip") none).2 =
      [(1, 4), (9, 10), (3, 4), (4, 4)] := by
  have hsf : getStorageFolder collabBase.pathExists collabBase.realpath
      "st" (uriPath "file:///tmp/db.zip") = .ok "st/db" := by
    rw [getStorageFolder_eq_find]
    decide
  exact progressSteps_amended_claim.1 collabBase "file:///tmp/db.zip" "st"
    (.archive "file:///tmp/db.zip") none "st/db" "st/db" (by decide) hsf
    (by decide) rfl
    (by simp [findDirWithFile, FsEntry.name, collabBase])

/-- C10: for an input that neither parses as a GitHub repository URL (the
URL-identifier helper yields nothing) nor is itself a valid name-with-owner,
`downloadGitHubDatabase` fails immediately with the invalid-repository error
naming the input, and its event trace is empty — no network request, user
prompt, or filesystem modification has occurred. -/
theorem downloadGitHubDatabase_invalid_claim :
    ∀ (w : Collab) (getNwo : String → Option String)
      (isValid : String → Bool) (githubRepo storagePath : String)
      (language : Option String),
      getNwo githubRepo = none → isValid githubRepo = false →
      downloadGitHubDatabase w getNwo isValid githubRepo storagePath
          language =
        (.error (.invalidRepo githubRepo), []) := by
  intro w getNwo isValid repo sp lang hg hv
  simp only [downloadGitHubDatabase, hg, Option.getD_none, hv]
  rfl

/-- Witness for C10 at a concrete invalid input. -/
theorem downloadGitHubDatabase_invalid_claim_witness :
    downloadGitHubDatabase collabBase (fun _ => none) (fun _ => false)
        "not a repo" "store" none =
      (.error (.invalidRepo "not a repo"), []) :=
  downloadGitHubDatabase_invalid_claim collabBase (fun _ => none)
    (fun _ => false) "not a repo" "store" none rfl rfl
